import Mathlib

/-!
Shallow embedding of the market-miner data-normalization and persistence
pipeline (scrapy project `scrapper`), together with proofs about the
properties stated in its specification.

Conventions used throughout this development:

* Python `float` values carried by prices are modelled as exact rationals
  (`ℚ`); the arithmetic of interest is decimal, not binary rounding.
* Python `None` becomes `Option.none`; Python truthiness of a string is
  `s ≠ ""`, of an optional number `p ≠ none ∧ p ≠ some 0`.
* Timestamps are modelled as natural numbers (larger = later).
* A database table is a list of rows in insertion order; a query with an
  `order` clause is modelled by a stable sort on the ordering column,
  a query without one returns rows in table order.
* Fallible operations return `Except String` values; a Python exception
  that is caught corresponds to the `.error` branch being consumed.
-/

namespace MarketMiner

/-! ## Price extraction (`ProductValidationPipeline._extract_price`)

Source: `src/scrapper/pipelines.py`.

```python
def _extract_price(self, raw_price: str) -> Optional[float]:
    if not raw_price:
        return None
    price_str = raw_price.replace(" ", "")
    price_str = re.sub(r'[^\d,.]', '', price_str)
    try:
        if ',' in price_str:
            price_str = price_str.replace('.', '').replace(',', '.')
        return float(price_str)
    except ValueError:
        return None
```
-/

/-- A character kept by the regex `[^\d,.]` stripping step: an ASCII digit,
a comma or a dot. -/
def isPriceChar (c : Char) : Bool :=
  c.isDigit || c == ',' || c == '.'

/-- `raw_price.replace(" ", "")` followed by `re.sub(r'[^\d,.]', '', ·)`:
the composite keeps exactly the digits, commas and dots (a space is not in
`[\d,.]`, so removing spaces first changes nothing). -/
def stripPrice (cs : List Char) : List Char :=
  (cs.filter (fun c => c ≠ ' ')).filter isPriceChar

/-- Numeric value of a digit list, most significant first (the value
`int("...")` would give; `[]` contributes `0`). -/
def digitsVal (cs : List Char) : ℕ :=
  cs.foldl (fun n c => 10 * n + (c.toNat - ('0').toNat)) 0

/-- Python `float(s)` restricted to strings of digits and dots (the only
strings the extractor ever feeds it): no dot requires a nonempty all-digit
string; exactly one dot requires all-digit parts not both empty
(`"5."` and `".5"` are accepted by `float`); two or more dots fail. -/
def parseFloat (cs : List Char) : Option ℚ :=
  if cs.count '.' = 0 then
    if cs ≠ [] ∧ cs.all Char.isDigit then some (digitsVal cs) else none
  else if cs.count '.' = 1 then
    let a := cs.takeWhile (fun c => c ≠ '.')
    let b := (cs.dropWhile (fun c => c ≠ '.')).drop 1
    if (a.all Char.isDigit ∧ b.all Char.isDigit) ∧ (a ≠ [] ∨ b ≠ []) then
      some ((digitsVal a : ℚ) + (digitsVal b : ℚ) / 10 ^ b.length)
    else none
  else none

/-- The `try` block of `_extract_price` applied to the stripped character
list: if a comma is present, drop every dot (thousands separators) and turn
the comma into the decimal dot, then run `float(...)`. -/
def extractCore (cs : List Char) : Option ℚ :=
  if ',' ∈ cs then
    parseFloat ((cs.filter (fun c => c ≠ '.')).map
      (fun c => if c = ',' then '.' else c))
  else
    parseFloat cs

/-- `ProductValidationPipeline._extract_price` on a character list
(`if not raw_price: return None` is the emptiness test). -/
def extractPriceL (cs : List Char) : Option ℚ :=
  if cs = [] then none else extractCore (stripPrice cs)

/-- `ProductValidationPipeline._extract_price`. -/
def extractPrice (raw_price : String) : Option ℚ :=
  extractPriceL raw_price.data

example : extractPrice "abc" = none := by decide

/-! ### Basic lemmas about the stripping and parsing layers -/

lemma stripPrice_append (a b : List Char) :
    stripPrice (a ++ b) = stripPrice a ++ stripPrice b := by
  simp [stripPrice, List.filter_append]

lemma stripPrice_eq_nil (t : List Char) (h : ∀ c ∈ t, isPriceChar c = false) :
    stripPrice t = [] := by
  refine List.filter_eq_nil_iff.mpr ?_
  intro c hc
  have := h c (List.mem_of_mem_filter hc)
  simp [this]

lemma stripPrice_eq_self (cs : List Char)
    (h : ∀ c ∈ cs, isPriceChar c = true ∧ c ≠ ' ') : stripPrice cs = cs := by
  have h1 : cs.filter (fun c => c ≠ ' ') = cs :=
    List.filter_eq_self.mpr (fun c hc => by simpa using (h c hc).2)
  have h2 : cs.filter isPriceChar = cs :=
    List.filter_eq_self.mpr (fun c hc => (h c hc).1)
  unfold stripPrice
  rw [h1, h2]

lemma extractCore_nil : extractCore [] = none := by decide

lemma extractPriceL_append_left (s t : List Char)
    (h : ∀ c ∈ t, isPriceChar c = false) :
    extractPriceL (t ++ s) = extractPriceL s := by
  rcases List.eq_nil_or_concat t with ht | _
  · simp [ht]
  · by_cases hs : s = []
    · subst hs
      unfold extractPriceL
      by_cases ht0 : t = []
      · simp [ht0]
      · rw [if_neg (by simpa using ht0), if_pos rfl, List.append_nil,
          stripPrice_eq_nil t h, extractCore_nil]
    · unfold extractPriceL
      rw [if_neg (by simp [hs]), if_neg hs, stripPrice_append,
        stripPrice_eq_nil t h, List.nil_append]

lemma extractPriceL_append_right (s t : List Char)
    (h : ∀ c ∈ t, isPriceChar c = false) :
    extractPriceL (s ++ t) = extractPriceL s := by
  by_cases hs : s = []
  · subst hs
    rw [List.nil_append, ← List.append_nil t, extractPriceL_append_left _ t h]
  · unfold extractPriceL
    rw [if_neg (by simp [hs]), if_neg hs, stripPrice_append,
      stripPrice_eq_nil t h, List.append_nil]

lemma all_digits_not_mem_dot (a : List Char) (ha : a.all Char.isDigit = true) :
    '.' ∉ a := by
  intro hmem
  have := List.all_eq_true.mp ha '.' hmem
  simp at this

lemma all_digits_not_mem_comma (a : List Char) (ha : a.all Char.isDigit = true) :
    ',' ∉ a := by
  intro hmem
  have := List.all_eq_true.mp ha ',' hmem
  simp at this

lemma takeWhile_dot (a b : List Char) (h : '.' ∉ a) :
    (a ++ '.' :: b).takeWhile (fun c => c ≠ '.') = a ∧
    (a ++ '.' :: b).dropWhile (fun c => c ≠ '.') = '.' :: b := by
  induction a with
  | nil => simp
  | cons c cs ih =>
    have hc : c ≠ '.' := fun hc => h (hc ▸ List.mem_cons_self c cs)
    have h2 := ih (fun hm => h (List.mem_cons_of_mem c hm))
    simp only [List.cons_append]
    rw [List.takeWhile_cons, List.dropWhile_cons,
      if_pos (by simp [hc]), if_pos (by simp [hc])]
    exact ⟨by rw [h2.1], h2.2⟩

lemma count_dot_split (a b : List Char) (ha : '.' ∉ a) (hb : '.' ∉ b) :
    (a ++ '.' :: b).count '.' = 1 := by
  rw [List.count_append, List.count_cons_self,
    List.count_eq_zero.mpr ha, List.count_eq_zero.mpr hb]

/-- `float("a.b")` for nonempty digit strings `a`, `b` parses the dot as the
decimal separator. -/
lemma parseFloat_decimal (a b : List Char)
    (ha : a.all Char.isDigit = true) (hb : b.all Char.isDigit = true)
    (hne : a ≠ [] ∨ b ≠ []) :
    parseFloat (a ++ '.' :: b) =
      some ((digitsVal a : ℚ) + (digitsVal b : ℚ) / 10 ^ b.length) := by
  have hda := all_digits_not_mem_dot a ha
  have hdb := all_digits_not_mem_dot b hb
  have hcount := count_dot_split a b hda hdb
  have htake := takeWhile_dot a b hda
  unfold parseFloat
  rw [if_neg (by omega), if_pos hcount]
  simp only [htake.1, htake.2, List.drop_succ_cons, List.drop_zero]
  rw [if_pos ⟨⟨ha, hb⟩, hne⟩]

lemma extractPrice_hungarian :
    extractPrice "123.456,78 Kč" = some ((12345678 : ℚ) / 100) := by
  have h0 : ¬("123.456,78 Kč".data = []) := by decide
  have h2 : ',' ∈ stripPrice "123.456,78 Kč".data := by decide
  have h3 : ((stripPrice "123.456,78 Kč".data).filter (fun c => c ≠ '.')).map
      (fun c => if c = ',' then '.' else c) =
      "123456".data ++ '.' :: "78".data := by decide
  unfold extractPrice extractPriceL extractCore
  rw [if_neg h0, if_pos h2, h3,
    parseFloat_decimal _ _ (by decide) (by decide) (Or.inl (by decide))]
  rw [show digitsVal "123456".data = 123456 from by decide,
    show digitsVal "78".data = 78 from by decide,
    show ("78".data).length = 2 from by decide]
  norm_num

/-- C6: the price extractor strips currency symbols and every other
non-digit, non-separator character (prepending or appending any text made
of such characters never changes the result); when a decimal comma is
present it treats the comma as the decimal separator and dots as thousands
separators, so `"123.456,78 Kč"` parses to `123456.78`; and an unparsable
input such as `"abc"` yields `none` — the embedded function is total, so
no input raises. -/
theorem C6_extract_price_spec :
    (∀ s t : String, (∀ c ∈ t.data, isPriceChar c = false) →
      extractPrice (t ++ s) = extractPrice s ∧
      extractPrice (s ++ t) = extractPrice s)
    ∧ extractPrice "123.456,78 Kč" = some ((12345678 : ℚ) / 100)
    ∧ extractPrice "abc" = none := by
  refine ⟨fun s t h => ⟨?_, ?_⟩, extractPrice_hungarian, by decide⟩
  · show extractPriceL (t ++ s).data = extractPriceL s.data
    rw [show (t ++ s).data = t.data ++ s.data from rfl]
    exact extractPriceL_append_left s.data t.data h
  · show extractPriceL (s ++ t).data = extractPriceL s.data
    rw [show (s ++ t).data = s.data ++ t.data from rfl]
    exact extractPriceL_append_right s.data t.data h

/-- Witness for C6: `"Kč "` consists of non-digit non-separator characters
only, and stripping it from `"Kč 12,5"` leaves the parse of `"12,5"`. -/
theorem C6_extract_price_spec_witness :
    (∀ c ∈ ("Kč " : String).data, isPriceChar c = false) ∧
    extractPrice ("Kč " ++ "12,5") = extractPrice "12,5" :=
  ⟨by decide, (C6_extract_price_spec.1 "12,5" "Kč " (by decide)).1⟩

/-- C10: when the stripped text contains one or more dots but no comma the
dots are kept and read as the decimal separator: for nonempty digit
strings `a` and `b`, the text `a.b` parses to the decimal value
`a + b / 10 ^ |b|`; concretely `"123.456"` parses to `123456/1000`
(that is, `123.456`) and not to `123456` — dots are removed as thousands
separators only when a comma is also present. -/
theorem C10_dots_kept_without_comma :
    (∀ a b : List Char, a.all Char.isDigit = true → b.all Char.isDigit = true →
      a ≠ [] → b ≠ [] →
      extractPrice (String.mk (a ++ '.' :: b)) =
        some ((digitsVal a : ℚ) + (digitsVal b : ℚ) / 10 ^ b.length))
    ∧ extractPrice "123.456" = some ((123456 : ℚ) / 1000)
    ∧ extractPrice "123.456" ≠ some (123456 : ℚ) := by
  have hgen : ∀ a b : List Char,
      a.all Char.isDigit = true → b.all Char.isDigit = true →
      a ≠ [] → b ≠ [] →
      extractPrice (String.mk (a ++ '.' :: b)) =
        some ((digitsVal a : ℚ) + (digitsVal b : ℚ) / 10 ^ b.length) := by
    intro a b ha hb ha' hb'
    have hmem : ∀ c ∈ a ++ '.' :: b, isPriceChar c = true ∧ c ≠ ' ' := by
      intro c hc
      rcases List.mem_append.mp hc with hca | hcb
      · have hd := List.all_eq_true.mp ha c hca
        refine ⟨by simp [isPriceChar, hd], ?_⟩
        intro he
        rw [he] at hd
        simp at hd
      · rcases List.mem_cons.mp hcb with rfl | hcb'
        · exact ⟨by decide, by decide⟩
        · have hd := List.all_eq_true.mp hb c hcb'
          refine ⟨by simp [isPriceChar, hd], ?_⟩
          intro he
          rw [he] at hd
          simp at hd
    have hnc : ',' ∉ a ++ '.' :: b := by
      intro hc
      rcases List.mem_append.mp hc with hca | hcb
      · exact all_digits_not_mem_comma a ha hca
      · rcases List.mem_cons.mp hcb with he | hcb'
        · exact absurd he (by decide)
        · exact all_digits_not_mem_comma b hb hcb'
    show extractPriceL (String.mk (a ++ '.' :: b)).data = _
    rw [show (String.mk (a ++ '.' :: b)).data = a ++ '.' :: b from rfl]
    unfold extractPriceL
    rw [if_neg (by simp)]
    unfold extractCore
    rw [stripPrice_eq_self _ hmem, if_neg hnc,
      parseFloat_decimal a b ha hb (Or.inl ha')]
  refine ⟨hgen, ?_, ?_⟩
  · have h1 := hgen ['1', '2', '3'] ['4', '5', '6']
      (by decide) (by decide) (by decide) (by decide)
    rw [show ("123.456" : String) =
      String.mk (['1', '2', '3'] ++ '.' :: ['4', '5', '6']) from by decide, h1]
    rw [show digitsVal ['1', '2', '3'] = 123 from by decide,
      show digitsVal ['4', '5', '6'] = 456 from by decide,
      show (['4', '5', '6'] : List Char).length = 3 from rfl]
    norm_num
  · have h1 := hgen ['1', '2', '3'] ['4', '5', '6']
      (by decide) (by decide) (by decide) (by decide)
    rw [show ("123.456" : String) =
      String.mk (['1', '2', '3'] ++ '.' :: ['4', '5', '6']) from by decide, h1]
    rw [show digitsVal ['1', '2', '3'] = 123 from by decide,
      show digitsVal ['4', '5', '6'] = 456 from by decide,
      show (['4', '5', '6'] : List Char).length = 3 from rfl]
    intro hcontra
    rw [Option.some_inj] at hcontra
    norm_num at hcontra

/-- Witness for C10: instantiation at the digit strings `"7"` and `"5"`,
giving `7.5` for the text `"7.5"`. -/
theorem C10_dots_kept_without_comma_witness :
    ((['7'] : List Char).all Char.isDigit = true ∧
      (['5'] : List Char).all Char.isDigit = true) ∧
    extractPrice (String.mk (['7'] ++ '.' :: ['5'])) =
      some ((digitsVal ['7'] : ℚ) +
        (digitsVal ['5'] : ℚ) / 10 ^ (['5'] : List Char).length) :=
  ⟨⟨by decide, by decide⟩,
    C10_dots_kept_without_comma.1 ['7'] ['5']
      (by decide) (by decide) (by decide) (by decide)⟩

/-! ## Validation pipeline (`ProductValidationPipeline.process_item`)

Source: `src/scrapper/pipelines.py`.  The check loops over
`['url', 'website', 'product_name']` and raises
`DropItem(f"Missing required field: {field}")` at the first field for which
`adapter.get(field)` is falsy — that is, missing **or** empty.  The
subsequent cleaning block re-parses optional price text through
`_extract_price`, which returns `None` on garbage instead of raising.

The item is modelled by the fields this claim touches: the three required
string fields, the selected variant's offer price text (the optional field
through which garbage reaches `_extract_price` and then
`adapter['price']`), the numeric price and the timestamp.  All embedded
cleaning operations are total, matching the fact that the Python
`try`-block cannot raise on this item shape. -/

/-- Python falsiness of `adapter.get(field)` for a string field: the field
is missing or the empty string. -/
def falsyStr : Option String → Bool
  | none => true
  | some s => s = ""

/-- `_clean_text`: collapse whitespace runs and trim
(`" ".join(text.strip().split())`). -/
def cleanText (s : String) : String :=
  String.intercalate " " ((s.split Char.isWhitespace).filter (fun w => w ≠ ""))

/-- The slice of a scrapy item that the required-field check and the
price-cleaning path read and write. -/
structure RawItem where
  url : Option String
  website : Option String
  product_name : Option String
  selected_variant_price : Option String
  price : Option ℚ
  timestamp : Option Nat
deriving DecidableEq

/-- `ProductValidationPipeline.process_item` restricted to the embedded
fields: required-field check first (fatal, first falsy field named in the
drop reason), then cleaning — name cleanup, selected-variant price
extraction written back to `price`, timestamp default. -/
def processItem (now : Nat) (item : RawItem) : Except String RawItem :=
  if falsyStr item.url then Except.error "Missing required field: url"
  else if falsyStr item.website then Except.error "Missing required field: website"
  else if falsyStr item.product_name then
    Except.error "Missing required field: product_name"
  else
    let item1 := { item with product_name := item.product_name.map cleanText }
    let item2 := match item1.selected_variant_price with
      | none => item1
      | some t => { item1 with price := extractPrice t }
    Except.ok (match item2.timestamp with
      | none => { item2 with timestamp := some now }
      | some _ => item2)

/-- Reading a required field by its name. -/
def requiredField (item : RawItem) : String → Option String
  | "url" => item.url
  | "website" => item.website
  | "product_name" => item.product_name
  | _ => none

/-- An item whose three required fields are all present but whose
`product_name` is the empty string. -/
def emptyNameItem : RawItem :=
  { url := some "http://a.example/p", website := some "a.example",
    product_name := some "", selected_variant_price := none,
    price := none, timestamp := some 1 }

/-- C4 counterexample: the claim says the validation stage rejects an item
iff a required field is *absent*; here all three required fields are
present (`product_name` is `""`, not missing), yet the stage rejects the
item — the code tests Python falsiness, not absence. -/
theorem C4_counterexample_empty_is_rejected :
    (emptyNameItem.url ≠ none ∧ emptyNameItem.website ≠ none ∧
      emptyNameItem.product_name ≠ none) ∧
    processItem 0 emptyNameItem =
      Except.error "Missing required field: product_name" :=
  ⟨by decide, rfl⟩

/-- C4 (amended): the validation stage rejects an item, with a drop reason
naming a required field that is indeed falsy, iff at least one of `url`,
`website`, `product_name` is absent **or empty**; when all three are
non-empty the item always passes the stage, and unparsable garbage in the
optional price text merely leaves a null `price` (via `_extract_price`)
rather than causing a rejection. -/
theorem C4_required_field_check (now : Nat) (item : RawItem) :
    ((falsyStr item.url ∨ falsyStr item.website ∨ falsyStr item.product_name) →
      ∃ f, f ∈ (["url", "website", "product_name"] : List String) ∧
        falsyStr (requiredField item f) = true ∧
        processItem now item = Except.error ("Missing required field: " ++ f)) ∧
    (¬(falsyStr item.url ∨ falsyStr item.website ∨ falsyStr item.product_name) →
      ∃ out, processItem now item = Except.ok out ∧
        out.price = (match item.selected_variant_price with
          | none => item.price
          | some t => extractPrice t)) := by
  constructor
  · intro hfalsy
    by_cases hu : falsyStr item.url = true
    · exact ⟨"url", by simp, hu, by simp [processItem, hu, requiredField]⟩
    · by_cases hw : falsyStr item.website = true
      · refine ⟨"website", by simp, hw, ?_⟩
        simp only [processItem, requiredField]
        rw [if_neg (by simp [hu]), if_pos hw]
        rfl
      · have hp : falsyStr item.product_name = true := by
          rcases hfalsy with h | h | h
          · exact absurd h hu
          · exact absurd h hw
          · exact h
        refine ⟨"product_name", by simp, hp, ?_⟩
        simp only [processItem, requiredField]
        rw [if_neg (by simp [hu]), if_neg (by simp [hw]), if_pos hp]
        rfl
  · intro hok
    push_neg at hok
    simp only [processItem]
    rw [if_neg (by simp [hok.1]), if_neg (by simp [hok.2.1]),
      if_neg (by simp [hok.2.2])]
    refine ⟨_, rfl, ?_⟩
    cases h : item.selected_variant_price <;>
      · simp only [h]
        cases ht : item.timestamp <;> simp [h, ht]

/-- An item with all required fields non-empty whose selected variant
carries unparsable price text. -/
def garbagePriceItem : RawItem :=
  { url := some "http://a.example/p", website := some "a.example",
    product_name := some "Widget", selected_variant_price := some "abc",
    price := some 5, timestamp := some 1 }

/-- Witness for C4: an item with all required fields non-empty and the
garbage price text `"abc"` passes the stage with a null price. -/
theorem C4_required_field_check_witness :
    ¬(falsyStr garbagePriceItem.url ∨ falsyStr garbagePriceItem.website ∨
        falsyStr garbagePriceItem.product_name) ∧
    ∃ out, processItem 0 garbagePriceItem = Except.ok out ∧
      out.price = (match garbagePriceItem.selected_variant_price with
        | none => garbagePriceItem.price
        | some t => extractPrice t) :=
  ⟨by decide, (C4_required_field_check 0 garbagePriceItem).2 (by decide)⟩

/-! ## Category repository (`CategoryRepository.create` / `.update`)

Source: `src/scrapper/db/repositories/category.py`.  A table row carries
`id`, `name`, `parent_id` (nullable) and the materialized `path`
(nullable, made so by migration 0004).  `update` recalculates the path
when the parent changed and then rewrites each descendant's path with
Python's `str.replace`, which replaces **every** occurrence of the old
path substring, not just the leading prefix. -/

/-- Python's `f"{x}"` on an optional string: `None` prints as `"None"`. -/
def pyOptStr : Option String → String
  | none => "None"
  | some s => s

/-- Python `s.replace("", new)`: `new` is inserted before every character
and at the end (unused by the repository, present for totality). -/
def interEmpty (new : List Char) : List Char → List Char
  | [] => new
  | c :: r => new ++ c :: interEmpty new r

/-- Scanning core of Python `str.replace` for a nonempty pattern: replace
each leftmost non-overlapping occurrence.  The `fuel` argument only makes
the recursion structural; `pyReplaceL` passes the list length, which the
scan can never exhaust, so the `fuel = 0` branch is dead code. -/
def pyReplaceFuel (old new : List Char) : Nat → List Char → List Char
  | 0, s => s
  | _ + 1, [] => []
  | fuel + 1, c :: rest =>
    if old.isPrefixOf (c :: rest) then
      new ++ pyReplaceFuel old new fuel ((c :: rest).drop old.length)
    else
      c :: pyReplaceFuel old new fuel rest

/-- Python `s.replace(old, new)` on character lists. -/
def pyReplaceL (s old new : List Char) : List Char :=
  match old with
  | [] => interEmpty new s
  | _ :: _ => pyReplaceFuel old new s.length s

/-- Python `s.replace(old, new)`. -/
def pyReplace (s old new : String) : String :=
  String.mk (pyReplaceL s.data old.data new.data)

example : pyReplace "1.11" "1" "2.1" = "2.1.2.12.1" := by decide

/-- A stored `categories` row. -/
structure CategoryRow where
  id : Nat
  name : String
  parent_id : Option Nat
  path : Option String
deriving DecidableEq

/-- The in-memory `CategoryData` handed to the repository (`id` may be
unset before insertion). -/
structure CategoryModel where
  id : Option Nat
  name : String
  parent_id : Option Nat
  path : Option String
deriving DecidableEq

/-- Python truthiness of an optional integer (`if model.parent_id:`):
`None` and `0` are falsy. -/
def truthyNat : Option Nat → Bool
  | none => false
  | some n => n ≠ 0

/-- `BaseRepository.get_by_id`: first row whose `id` column matches. -/
def getById (store : List CategoryRow) (id : Nat) : Option CategoryRow :=
  (store.filter (fun r => r.id = id)).head?

/-- `CategoryRepository.get_descendants(path)`: rows whose path differs
from `path` and matches the SQL pattern `path.%` (a `NULL` path fails
both filters). -/
def getDescendants (store : List CategoryRow) (path : String) : List CategoryRow :=
  store.filter (fun r =>
    match r.path with
    | none => false
    | some p => p ≠ path ∧ (path ++ ".").data.isPrefixOf p.data)

/-- `BaseRepository.update` keyed on `id`: overwrite the matching row.
(The repository's update flow always carries every column, so the
row is replaced wholesale.) -/
def updateRow (store : List CategoryRow) (row : CategoryRow) : List CategoryRow :=
  store.map (fun r => if r.id = row.id then row else r)

/-- `CategoryRepository.create`: when the model names a (truthy) parent,
look it up (error if absent) and set
`path = f"{parent.path}.{model.id}" if model.id else parent.path`;
otherwise `path = str(model.id) if model.id else None`.  The insert lets
the store assign `nextId` when the model has no id. -/
def categoryCreate (store : List CategoryRow) (nextId : Nat)
    (model : CategoryModel) : Except String (List CategoryRow) :=
  if truthyNat model.parent_id then
    match getById store (model.parent_id.getD 0) with
    | none => Except.error "Parent category not found"
    | some parent =>
      let path := if truthyNat model.id then
          some (pyOptStr parent.path ++ "." ++ toString (model.id.getD 0))
        else parent.path
      let row : CategoryRow :=
        { id := model.id.getD nextId, name := model.name,
          parent_id := model.parent_id, path := path }
      Except.ok (store ++ [row])
  else
    let path := if truthyNat model.id then
        some (toString (model.id.getD 0)) else none
    let row : CategoryRow :=
      { id := model.id.getD nextId, name := model.name,
        parent_id := model.parent_id, path := path }
    Except.ok (store ++ [row])

/-- `CategoryRepository.update`: error without an id or for an unknown id;
when the parent changed, recompute this row's path, then rewrite every
descendant's path via `descendant.path.replace(current.path, model.path)`
(Python replace-all) and save it, and finally save the row itself. -/
def categoryUpdate (store : List CategoryRow)
    (model : CategoryModel) : Except String (List CategoryRow) :=
  if ¬ truthyNat model.id then Except.error "Category ID is required for update"
  else
    let mid := model.id.getD 0
    match getById store mid with
    | none => Except.error "Category not found"
    | some current =>
      if current.parent_id = model.parent_id then
        let row : CategoryRow :=
          { id := mid, name := model.name,
            parent_id := model.parent_id, path := model.path }
        Except.ok (updateRow store row)
      else
        let newPathRes : Except String String :=
          if truthyNat model.parent_id then
            match getById store (model.parent_id.getD 0) with
            | none => Except.error "Parent category not found"
            | some parent =>
              Except.ok (pyOptStr parent.path ++ "." ++ toString mid)
          else Except.ok (toString mid)
        match newPathRes with
        | Except.error e => Except.error e
        | Except.ok newPath =>
          let oldPath := pyOptStr current.path
          let descendants := getDescendants store oldPath
          let store1 := descendants.foldl (fun st d =>
            updateRow st { d with
              path := some (pyReplace (pyOptStr d.path) oldPath newPath) }) store
          let row : CategoryRow :=
            { id := mid, name := model.name,
              parent_id := model.parent_id, path := some newPath }
          Except.ok (updateRow store1 row)

/-- The specified path invariant for one row: a root's path is its own id,
a child's path is its parent's path, a dot, and its own id. -/
def rowPathOk (store : List CategoryRow) (r : CategoryRow) : Bool :=
  match r.parent_id with
  | none => r.path == some (toString r.id)
  | some p => store.any (fun parent =>
      parent.id == p &&
      r.path == some (pyOptStr parent.path ++ "." ++ toString r.id))

/-- The specified path invariant over a whole store. -/
def categoryPathInvariant (store : List CategoryRow) : Bool :=
  store.all (rowPathOk store)

/-- Store for the C1 scenario: roots `1` and `2`, and `11`, a child of
`1`; every path satisfies the invariant. -/
def c1Store : List CategoryRow :=
  [{ id := 1, name := "electronics", parent_id := none, path := some "1" },
   { id := 11, name := "phones", parent_id := some 1, path := some "1.11" },
   { id := 2, name := "home", parent_id := none, path := some "2" }]

/-- The update request of the C1 scenario: move category `1` under `2`. -/
def c1Model : CategoryModel :=
  { id := some 1, name := "electronics", parent_id := some 2, path := none }

/-- The store `CategoryRepository.update` actually produces for the C1
scenario: `"1.11".replace("1", "2.1")` rewrites every occurrence of `"1"`,
yielding `"2.1.2.12.1"` for category `11`. -/
def c1Result : List CategoryRow :=
  [{ id := 1, name := "electronics", parent_id := some 2, path := some "2.1" },
   { id := 11, name := "phones", parent_id := some 1, path := some "2.1.2.12.1" },
   { id := 2, name := "home", parent_id := none, path := some "2" }]

/-- C1: evaluation at the failing input.  Starting from a store satisfying
the path invariant, reassigning category `1` (path `"1"`) under parent `2`
succeeds, but the descendant rewrite uses Python replace-all, so category
`11` ends with path `"2.1.2.12.1"` instead of `"2.1.11"` — the invariant
that a non-root's path is its parent's path ++ "." ++ its own id does not
survive `CategoryRepository.update`. -/
theorem C1_update_breaks_path_invariant :
    categoryPathInvariant c1Store = true ∧
    categoryUpdate c1Store c1Model = Except.ok c1Result ∧
    (getById c1Result 11).map CategoryRow.path = some (some "2.1.2.12.1") ∧
    (getById c1Result 11).map CategoryRow.path ≠
      some (some ("2.1" ++ "." ++ toString 11)) ∧
    categoryPathInvariant c1Result = false :=
  ⟨by decide, rfl, by decide, by decide, by decide⟩

/-! ## Availability-keyword tracking
(`ScrapingService._process_availability_keyword`)

Sources: `src/scrapper/db/services/scraping_service.py` and
`src/scrapper/db/repositories/availability_keyword.py`. -/

/-- A stored `availability_keywords` row. -/
structure KwRow where
  retailer_id : Nat
  keyword : String
  occurrence_count : Nat
  first_seen_at : Nat
  last_seen_at : Nat
deriving DecidableEq

/-- Python `str.strip()`: drop leading and trailing whitespace. -/
def pyStrip (s : String) : String :=
  String.mk (((s.data.dropWhile Char.isWhitespace).reverse.dropWhile
    Char.isWhitespace).reverse)

/-- `ScrapingService._process_availability_keyword`: strip the status
text, return unchanged on an empty keyword, otherwise run the
look-up/insert body (`tryAvail`, covering
`get_by_retailer_and_keyword` and the conditional `create`) inside
`try: ... except Exception: pass` — any exception the body raises is
swallowed and the store is left as the body left it (our `tryAvail`
reports the store state only on success, so a failed body leaves the
prior store, matching the fact that the broken repository raises before
reaching the store). -/
def processAvailKeywordWith
    (tryAvail : List KwRow → Nat → String → Except String (List KwRow))
    (kws : List KwRow) (rid : Nat) (statusText : String) : List KwRow :=
  let keyword := pyStrip statusText
  if keyword = "" then kws
  else
    match tryAvail kws rid keyword with
    | Except.ok k => k
    | Except.error _ => kws

/-- The actual look-up/insert body of the deployed code.  Every method of
`AvailabilityKeywordRepository` dereferences `self.table`, an attribute
that is never assigned — `BaseRepository.__init__` stores the table name
in `self.table_name` (and this subclass passes the name `"products"`,
not `"availability_keywords"`, besides).  The first repository call of
the body therefore raises `AttributeError` before any store access, and
on a repeat sighting the body would not write anyway: when the keyword
exists the service takes no action at all (the increment the migration's
trigger was meant to provide only fires on a successful insert). -/
def availTryActual (_kws : List KwRow) (_rid : Nat) (_kw : String) :
    Except String (List KwRow) :=
  Except.error
    "AttributeError: AvailabilityKeywordRepository object has no attribute table"

/-- `_process_availability_keyword` as deployed. -/
def processAvailKeyword (kws : List KwRow) (rid : Nat)
    (statusText : String) : List KwRow :=
  processAvailKeywordWith availTryActual kws rid statusText

/-- C3: evaluation at the failing input.  Processing the availability
keyword `"Skladem"` for retailer 1 twice, starting from an empty store,
stores nothing at all: after the second sighting there is no row for
`(1, "Skladem")`, so no row's `occurrence_count` ever reaches 2 and no
`last_seen_at` is ever updated (the claim expects exactly one row with
`occurrence_count = 2`). -/
theorem C3_second_sighting_stores_nothing :
    processAvailKeyword (processAvailKeyword [] 1 "Skladem") 1 "Skladem"
      = [] ∧
    ((processAvailKeyword (processAvailKeyword [] 1 "Skladem") 1
      "Skladem").filter
        (fun r => r.retailer_id == 1 && r.keyword == "Skladem")).length
      ≠ 1 := by
  decide

/-! ## Ingestion service (`ScrapingService.process_scraped_item`)

Source: `src/scrapper/db/services/scraping_service.py`.  The service
builds a `ScrapedData` record, runs the (failure-swallowing)
availability-keyword step when the item carries a free-text
`stock_status`, resolves or creates the product identity by name+brand,
optionally resolves the category (that step is *not* wrapped in a
`try`, so its failures propagate to the caller), links the category,
and finally persists the scraped record. -/

/-- Python truthiness of an optional string. -/
def truthyOptStr : Option String → Bool
  | none => false
  | some s => s ≠ ""

/-- A stored `products` row (identity table). -/
structure ProductRow where
  id : Nat
  name : String
  brand : Option String
  category_id : Option Nat
deriving DecidableEq

/-- A stored `scraped_data` row. -/
structure ScrapedRow where
  product_id : Option Nat := none
  retailer_id : Nat
  url : String
  price : Option ℚ := none
  success : Bool := false
  error_info : Option String := none
  category_id : Option Nat := none
  scraped_at : Nat
deriving DecidableEq

/-- The slice of a validated item the service reads. -/
structure ServiceItem where
  url : String
  product_name : String
  brand : Option String
  stock_status : Option String
  category : Option String
  price : Option ℚ
  success : Bool
  timestamp : Nat
deriving DecidableEq

/-- The persistent state the service touches. -/
structure IngestState where
  keywords : List KwRow
  products : List ProductRow
  categories : List CategoryRow
  scraped : List ScrapedRow
  nextProductId : Nat
deriving DecidableEq

/-- `ProductRepository.get_by_name_and_brand`: equality on `name`, plus
equality on `brand` only when the brand argument is truthy. -/
def getByNameAndBrand (products : List ProductRow) (name : String)
    (brand : Option String) : Option ProductRow :=
  (products.filter (fun p => p.name == name &&
    (if truthyOptStr brand then p.brand == brand else true))).head?

/-- `ScrapingService._find_or_create_product`: return the match, or insert
a fresh row with the next id.  Returns the store, the next free id and
the id of the found/created product. -/
def findOrCreateProduct (products : List ProductRow) (nextId : Nat)
    (name : String) (brand : Option String) :
    List ProductRow × Nat × Nat :=
  match getByNameAndBrand products name brand with
  | some p => (products, nextId, p.id)
  | none =>
    let row : ProductRow :=
      { id := nextId, name := name, brand := brand, category_id := none }
    (products ++ [row], nextId + 1, nextId)

/-- `ScrapingService.process_scraped_item`.  `tryAvail` is the
availability-keyword look-up/insert body (abstracted so that every
possible behaviour of that step, exceptions included, can be
quantified over); `catResolve` abstracts `_find_or_create_category`
(whose path ids depend on Python's runtime `hash`), returning the new
category store and the resolved category id, or an error that — unlike
the availability step's — propagates. -/
def processScrapedItem
    (tryAvail : List KwRow → Nat → String → Except String (List KwRow))
    (catResolve : List CategoryRow → String →
      Except String (List CategoryRow × Option Nat))
    (rid : Nat) (item : ServiceItem) (st : IngestState) :
    Except String (IngestState × ScrapedRow) :=
  let sd0 : ScrapedRow :=
    { retailer_id := rid, url := item.url, price := item.price,
      success := item.success, scraped_at := item.timestamp }
  let kws := match item.stock_status with
    | some s => processAvailKeywordWith tryAvail st.keywords rid s
    | none => st.keywords
  let res := findOrCreateProduct st.products st.nextProductId
    item.product_name item.brand
  let sd1 := { sd0 with product_id := some res.2.2 }
  match (if truthyOptStr item.category then
      catResolve st.categories (item.category.getD "")
    else Except.ok (st.categories, none)) with
  | Except.error e => Except.error e
  | Except.ok (cats, catId) =>
    let sd2 := match catId with
      | some cid => { sd1 with category_id := some cid }
      | none => sd1
    let prods2 := match catId with
      | some cid => res.1.map (fun p =>
          if p.id = res.2.2 then { p with category_id := some cid } else p)
      | none => res.1
    let st2 : IngestState :=
      { keywords := kws, products := prods2, categories := cats,
        scraped := st.scraped ++ [sd2], nextProductId := res.2.1 }
    Except.ok (st2, sd2)

/-- Everything `process_scraped_item` produces apart from the
availability-keyword table: products, categories, scraped rows, the id
counter and the returned record. -/
def nonKeywordView (p : IngestState × ScrapedRow) :
    List ProductRow × List CategoryRow × List ScrapedRow × Nat × ScrapedRow :=
  (p.1.products, p.1.categories, p.1.scraped, p.1.nextProductId, p.2)

/-- C8: whatever the availability-keyword step's body does — succeed,
raise, or return any keyword store whatsoever — the outcome of ingestion
is unchanged outside the keyword table: the call succeeds or fails
identically, and persists the same product, category and scraped/price
data.  In particular a body that always raises (the deployed one) yields
the same products, categories and scraped rows as any other behaviour:
the step's failure is swallowed and never propagates. -/
theorem C8_avail_step_failure_never_propagates
    (tryAvail1 tryAvail2 : List KwRow → Nat → String →
      Except String (List KwRow))
    (catResolve : List CategoryRow → String →
      Except String (List CategoryRow × Option Nat))
    (rid : Nat) (item : ServiceItem) (st : IngestState) :
    (processScrapedItem tryAvail1 catResolve rid item st).map nonKeywordView
      = (processScrapedItem tryAvail2 catResolve rid item st).map
          nonKeywordView := by
  unfold processScrapedItem
  cases hcat : (if truthyOptStr item.category then
      catResolve st.categories (item.category.getD "")
    else Except.ok (st.categories, none)) with
  | error e => rfl
  | ok v => rfl

/-! ## Retailer-product upsert (`RetailerProductRepository.upsert`)

Source: `src/scrapper/db/repositories/retailer_product.py` and migration
`0013_create_retailer_products.py`.  The payload is
`product.to_dict()` **minus `created_at`** (and `to_dict` drops `None`
fields); the store upserts it on the unique constraint
`(retailer_id, url)`: on conflict the payload columns are written over
the existing row, on insert the missing `created_at` column takes the
store default `CURRENT_TIMESTAMP` (the `now` argument below). -/

/-- A stored `retailer_products` row (the columns this claim concerns). -/
structure RPRow where
  retailer_id : Nat
  url : String
  name : String
  current_price : Option ℚ
  created_at : Nat
  updated_at : Nat
deriving DecidableEq

/-- The in-memory `RetailerProduct` being upserted. -/
structure RPModel where
  retailer_id : Nat
  url : String
  name : String
  current_price : Option ℚ
  updated_at : Nat
deriving DecidableEq

/-- The `(retailer_id, url)` unique-key test. -/
def rpKeyEq (rid : Nat) (url : String) (r : RPRow) : Bool :=
  r.retailer_id == rid && r.url == url

/-- On-conflict update: every payload column is written; `created_at` was
stripped from the payload so the stored value survives, and a `None`
`current_price` is dropped by `to_dict`, leaving that column untouched. -/
def rpApplyPayload (p : RPModel) (r : RPRow) : RPRow :=
  { retailer_id := p.retailer_id, url := p.url, name := p.name,
    current_price := match p.current_price with
      | some q => some q
      | none => r.current_price,
    created_at := r.created_at,
    updated_at := p.updated_at }

/-- Insert: absent `created_at` takes the store default (`now`). -/
def rpInsertRow (p : RPModel) (now : Nat) : RPRow :=
  { retailer_id := p.retailer_id, url := p.url, name := p.name,
    current_price := p.current_price, created_at := now,
    updated_at := p.updated_at }

/-- `RetailerProductRepository.upsert`, keyed on `(retailer_id, url)`. -/
def rpUpsert (store : List RPRow) (p : RPModel) (now : Nat) : List RPRow :=
  if store.any (rpKeyEq p.retailer_id p.url) then
    store.map (fun r =>
      if rpKeyEq p.retailer_id p.url r then rpApplyPayload p r else r)
  else store ++ [rpInsertRow p now]

/-- C2: upserting twice with the same `(retailer_id, url)` into a store
that holds no row for that key leaves exactly one row for the key; that
row carries the second upsert's (non-null) price, and its `created_at`
is the value the first insert received from the store default — the
upsert never writes `created_at` on conflict. -/
theorem C2_upsert_single_row_latest_price (store : List RPRow)
    (p1 p2 : RPModel) (t1 t2 : Nat)
    (hrid : p2.retailer_id = p1.retailer_id) (hurl : p2.url = p1.url)
    (hfresh : ∀ r ∈ store, rpKeyEq p1.retailer_id p1.url r = false)
    (hp2 : p2.current_price ≠ none) :
    ((rpUpsert (rpUpsert store p1 t1) p2 t2).filter
      (rpKeyEq p1.retailer_id p1.url)).length = 1 ∧
    ∀ r ∈ rpUpsert (rpUpsert store p1 t1) p2 t2,
      rpKeyEq p1.retailer_id p1.url r = true →
      r.current_price = p2.current_price ∧ r.created_at = t1 := by
  have hkey1 : rpKeyEq p2.retailer_id p2.url (rpInsertRow p1 t1) = true := by
    simp [rpKeyEq, rpInsertRow, hrid, hurl]
  have h1 : rpUpsert store p1 t1 = store ++ [rpInsertRow p1 t1] := by
    unfold rpUpsert
    rw [if_neg]
    simp only [List.any_eq_true, not_exists, not_and]
    intro r hr
    simp [hfresh r hr]
  have hsame : ∀ r : RPRow, rpKeyEq p2.retailer_id p2.url r =
      rpKeyEq p1.retailer_id p1.url r := by
    intro r
    simp [rpKeyEq, hrid, hurl]
  have h2 : rpUpsert (store ++ [rpInsertRow p1 t1]) p2 t2 =
      store ++ [rpApplyPayload p2 (rpInsertRow p1 t1)] := by
    unfold rpUpsert
    rw [if_pos]
    · rw [List.map_append]
      congr 1
      · refine List.map_congr_left ?_ |>.trans (List.map_id store)
        intro r hr
        rw [hsame r, hfresh r hr]
        simp
      · simp [hkey1]
    · refine List.any_eq_true.mpr ⟨rpInsertRow p1 t1, ?_, hkey1⟩
      simp
  have hkey2 : rpKeyEq p1.retailer_id p1.url
      (rpApplyPayload p2 (rpInsertRow p1 t1)) = true := by
    simp [rpKeyEq, rpApplyPayload, hrid, hurl]
  rw [h1, h2]
  constructor
  · rw [List.filter_append, List.filter_eq_nil_iff.mpr
      (fun r hr => by simp [hfresh r hr]), List.nil_append]
    simp [hkey2]
  · intro r hr hkey
    rcases List.mem_append.mp hr with hrs | hrone
    · rw [hfresh r hrs] at hkey
      exact absurd hkey (by simp)
    · have : r = rpApplyPayload p2 (rpInsertRow p1 t1) := by
        simpa using hrone
      subst this
      cases hcp : p2.current_price with
      | none => exact absurd hcp hp2
      | some q => exact ⟨by simp [rpApplyPayload, hcp], rfl⟩

/-- The two upserts of the C2 witness scenario. -/
def c2p1 : RPModel :=
  { retailer_id := 1, url := "http://r.example/p", name := "Widget",
    current_price := some 10, updated_at := 1 }

/-- Second upsert of the C2 witness scenario: same key, new price. -/
def c2p2 : RPModel :=
  { retailer_id := 1, url := "http://r.example/p", name := "Widget",
    current_price := some 12, updated_at := 2 }

/-- Witness for C2: instantiation on an empty store with two concrete
upserts for the same `(retailer_id, url)` and different prices. -/
theorem C2_upsert_single_row_latest_price_witness :
    (c2p2.retailer_id = c2p1.retailer_id ∧ c2p2.url = c2p1.url ∧
      c2p2.current_price ≠ none) ∧
    ((rpUpsert (rpUpsert [] c2p1 100) c2p2 200).filter
      (rpKeyEq c2p1.retailer_id c2p1.url)).length = 1 ∧
    ∀ r ∈ rpUpsert (rpUpsert [] c2p1 100) c2p2 200,
      rpKeyEq c2p1.retailer_id c2p1.url r = true →
      r.current_price = c2p2.current_price ∧ r.created_at = 100 :=
  ⟨⟨rfl, rfl, by decide⟩,
    C2_upsert_single_row_latest_price [] c2p1 c2p2 100 200 rfl rfl
      (by intro r hr; cases hr) (by decide)⟩

/-! ## Scraped-data analytics (`ScrapedDataRepository` and
`ScrapingService.get_retailer_performance`)

Source: `src/scrapper/db/repositories/scraped_data.py` and
`src/scrapper/db/services/scraping_service.py`.  The `order("scraped_at")`
clause is modelled by a stable sort on `scraped_at`; a query without an
order clause returns rows in table (insertion) order. -/

/-- Python truthiness of the `price` column (`if item["price"]`):
`None` and `0` are falsy. -/
def truthyPrice : Option ℚ → Bool
  | none => false
  | some q => decide (q ≠ 0)

/-- Ascending `scraped_at` order. -/
def byTimeAsc (a b : ScrapedRow) : Prop := a.scraped_at ≤ b.scraped_at

instance : DecidableRel byTimeAsc := fun a b => Nat.decLe a.scraped_at b.scraped_at

instance : IsTotal ScrapedRow byTimeAsc :=
  ⟨fun a b => Nat.le_total a.scraped_at b.scraped_at⟩

instance : IsTrans ScrapedRow byTimeAsc := ⟨fun _ _ _ => Nat.le_trans⟩

/-- Descending `scraped_at` order (`order("scraped_at", desc=True)`). -/
def byTimeDesc (a b : ScrapedRow) : Prop := b.scraped_at ≤ a.scraped_at

instance : DecidableRel byTimeDesc := fun a b => Nat.decLe b.scraped_at a.scraped_at

instance : IsTotal ScrapedRow byTimeDesc :=
  ⟨fun a b => Nat.le_total b.scraped_at a.scraped_at⟩

instance : IsTrans ScrapedRow byTimeDesc := ⟨fun _ _ _ h h2 => Nat.le_trans h2 h⟩

/-- `order("scraped_at")`. -/
def sortByTime (l : List ScrapedRow) : List ScrapedRow :=
  List.insertionSort byTimeAsc l

/-- `order("scraped_at", desc=True)`. -/
def sortByTimeDesc (l : List ScrapedRow) : List ScrapedRow :=
  List.insertionSort byTimeDesc l

/-- `ScrapedDataRepository.get_price_history`: rows of the product since
`startDate` in ascending time order, keeping only truthy prices
(`... for item in result.data if item["price"]`), as
`(scraped_at, price)` pairs. -/
def getPriceHistory (store : List ScrapedRow) (pid : Nat)
    (startDate : Nat) : List (Nat × ℚ) :=
  ((sortByTime (store.filter (fun r =>
      decide (r.product_id = some pid ∧ startDate ≤ r.scraped_at)))).filter
    (fun r => truthyPrice r.price)).map (fun r => (r.scraped_at, r.price.getD 0))

/-- `ScrapedDataRepository.get_latest_by_product`: newest-first order,
first row. -/
def getLatestByProduct (store : List ScrapedRow) (pid : Nat) :
    Option ScrapedRow :=
  (sortByTimeDesc (store.filter (fun r =>
    decide (r.product_id = some pid)))).head?

/-- A price point whose stored price is `0` (storable since migration
0005 dropped the nonzero-price constraint). -/
def c5ZeroRow : ScrapedRow :=
  { product_id := some 1, retailer_id := 1, url := "http://r.example/p",
    price := some 0, success := true, scraped_at := 10 }

/-- C5 counterexample: one appended price point (price `0`, inside the
window), yet the history query returns zero rows, not one — the
comprehension filters on Python truthiness and silently drops the row. -/
theorem C5_counterexample_zero_price_dropped :
    [c5ZeroRow].length = 1 ∧ getPriceHistory [c5ZeroRow] 1 0 = [] := by
  refine ⟨rfl, ?_⟩
  simp [getPriceHistory, sortByTime, List.insertionSort, truthyPrice,
    c5ZeroRow]

/-- C5 (amended): for a product's rows that all lie in the window and all
carry a non-null, nonzero price, the history query returns exactly one
pair per row, in ascending `scraped_at` order, and the latest-lookup
returns a row of the set whose `scraped_at` is greatest. -/
theorem C5_history_and_latest (store : List ScrapedRow)
    (pid startDate : Nat)
    (hpid : ∀ r ∈ store, r.product_id = some pid)
    (hwin : ∀ r ∈ store, startDate ≤ r.scraped_at)
    (hpr : ∀ r ∈ store, truthyPrice r.price = true) :
    (getPriceHistory store pid startDate).length = store.length ∧
    (getPriceHistory store pid startDate).Pairwise (fun a b => a.1 ≤ b.1) ∧
    (store ≠ [] → ∃ r, getLatestByProduct store pid = some r ∧ r ∈ store ∧
      ∀ r2 ∈ store, r2.scraped_at ≤ r.scraped_at) := by
  have hfil1 : store.filter (fun r =>
      decide (r.product_id = some pid ∧ startDate ≤ r.scraped_at)) = store :=
    List.filter_eq_self.mpr (fun r hr => by simp [hpid r hr, hwin r hr])
  have hperm : List.Perm (sortByTime store) store :=
    List.perm_insertionSort byTimeAsc store
  have hsorted : List.Sorted byTimeAsc (sortByTime store) :=
    List.sorted_insertionSort byTimeAsc store
  have hfil2 : (sortByTime store).filter (fun r => truthyPrice r.price)
      = sortByTime store :=
    List.filter_eq_self.mpr (fun r hr => hpr r (hperm.mem_iff.mp hr))
  refine ⟨?_, ?_, ?_⟩
  · unfold getPriceHistory
    rw [hfil1, hfil2, List.length_map]
    exact hperm.length_eq
  · unfold getPriceHistory
    rw [hfil1, hfil2]
    exact List.pairwise_map.mpr (hsorted.imp (fun h => h))
  · intro hne
    have hfil3 : store.filter (fun r => decide (r.product_id = some pid))
        = store :=
      List.filter_eq_self.mpr (fun r hr => by simp [hpid r hr])
    have hperm2 : List.Perm (sortByTimeDesc store) store :=
      List.perm_insertionSort byTimeDesc store
    have hsorted2 : List.Sorted byTimeDesc (sortByTimeDesc store) :=
      List.sorted_insertionSort byTimeDesc store
    unfold getLatestByProduct
    rw [hfil3]
    cases hs : sortByTimeDesc store with
    | nil =>
      have hlen := hperm2.length_eq
      rw [hs] at hlen
      exact absurd (List.length_eq_zero.mp hlen.symm) hne
    | cons a l =>
      refine ⟨a, by simp, ?_, ?_⟩
      · exact hperm2.mem_iff.mp (by rw [hs]; exact List.mem_cons_self a l)
      · intro r2 hr2
        have hr2' : r2 ∈ a :: l := by
          rw [← hs]
          exact hperm2.mem_iff.mpr hr2
        rcases List.mem_cons.mp hr2' with heq | hmem
        · exact heq ▸ Nat.le_refl _
        · exact List.rel_of_sorted_cons (hs ▸ hsorted2) r2 hmem

/-- The two price points of the C5 witness scenario (deliberately stored
out of time order). -/
def c5wRows : List ScrapedRow :=
  [{ product_id := some 1, retailer_id := 1, url := "a", price := some 10,
     success := true, scraped_at := 5 },
   { product_id := some 1, retailer_id := 1, url := "b", price := some 20,
     success := true, scraped_at := 3 }]

/-- Witness for C5: two concrete price points for product 1 in the window
starting at 0 satisfy the hypotheses, so the history has exactly two rows
in ascending order and the latest-lookup returns the newest row. -/
theorem C5_history_and_latest_witness :
    ((∀ r ∈ c5wRows, r.product_id = some 1) ∧
      (∀ r ∈ c5wRows, 0 ≤ r.scraped_at) ∧
      (∀ r ∈ c5wRows, truthyPrice r.price = true)) ∧
    (getPriceHistory c5wRows 1 0).length = c5wRows.length ∧
    (getPriceHistory c5wRows 1 0).Pairwise (fun a b => a.1 ≤ b.1) ∧
    (c5wRows ≠ [] → ∃ r, getLatestByProduct c5wRows 1 = some r ∧
      r ∈ c5wRows ∧ ∀ r2 ∈ c5wRows, r2.scraped_at ≤ r.scraped_at) :=
  ⟨⟨by decide, by decide,
      by intro r hr
         simp only [c5wRows, List.mem_cons, List.not_mem_nil, or_false] at hr
         rcases hr with rfl | rfl <;> norm_num [truthyPrice]⟩,
    C5_history_and_latest c5wRows 1 0 (by decide) (by decide)
      (by intro r hr
          simp only [c5wRows, List.mem_cons, List.not_mem_nil, or_false] at hr
          rcases hr with rfl | rfl <;> norm_num [truthyPrice])⟩

/-! ### Price-change detection (`ScrapedDataRepository.get_price_changes`) -/

/-- One step of the walk in `get_price_changes`: compare the current row's
price against the previous row's (`last_price`); when both are truthy
(non-null, nonzero) and `abs((current - last) / last * 100)` reaches the
threshold, emit `(timestamp, last, current)`. -/
def emitStep (threshold : ℚ) (lastPrice : Option ℚ) (r : ScrapedRow) :
    List (Nat × ℚ × ℚ) :=
  match r.price, lastPrice with
  | some c, some l =>
    if l ≠ 0 ∧ c ≠ 0 ∧ threshold ≤ |(c - l) / l * 100| then
      [(r.scraped_at, l, c)]
    else []
  | _, _ => []

/-- The walk of `get_price_changes`: `last_price` starts as `None` and is
set to the current row's price after every step, emitted or not. -/
def walkChanges (threshold : ℚ) : Option ℚ → List ScrapedRow →
    List (Nat × ℚ × ℚ)
  | _, [] => []
  | lastPrice, r :: rest =>
    emitStep threshold lastPrice r ++ walkChanges threshold r.price rest

/-- The chronological series of a product's rows
(`eq("product_id", …).order("scraped_at")`). -/
def chronology (store : List ScrapedRow) (pid : Nat) : List ScrapedRow :=
  sortByTime (store.filter (fun r => decide (r.product_id = some pid)))

/-- `ScrapedDataRepository.get_price_changes`. -/
def getPriceChanges (store : List ScrapedRow) (pid : Nat) (threshold : ℚ) :
    List (Nat × ℚ × ℚ) :=
  walkChanges threshold none (chronology store pid)

/-- Specification form of one emission, per the spec's formula
`|new - old| / old * 100 >= threshold`, over one consecutive pair, with
null-or-zero prices skipped. -/
def pairEmit (threshold : ℚ) (a b : ScrapedRow) : Option (Nat × ℚ × ℚ) :=
  match a.price, b.price with
  | some l, some c =>
    if l ≠ 0 ∧ c ≠ 0 ∧ threshold ≤ |c - l| / l * 100 then
      some (b.scraped_at, l, c)
    else none
  | _, _ => none

/-- Specification form of the detector: walk the series pairwise
(consecutive pairs) and emit exactly where `pairEmit` fires. -/
def pairChanges (threshold : ℚ) (rows : List ScrapedRow) :
    List (Nat × ℚ × ℚ) :=
  (rows.zip rows.tail).filterMap (fun ab => pairEmit threshold ab.1 ab.2)

lemma emitStep_eq_toList (θ : ℚ) (a b : ScrapedRow)
    (ha : ∀ q, a.price = some q → 0 ≤ q) :
    emitStep θ a.price b = (pairEmit θ a b).toList := by
  cases hap : a.price with
  | none => cases hbp : b.price <;> simp [emitStep, pairEmit, hap, hbp]
  | some l =>
    cases hbp : b.price with
    | none => simp [emitStep, pairEmit, hap, hbp]
    | some c =>
      by_cases hl : l = 0
      · subst hl
        simp [emitStep, pairEmit, hap, hbp]
      · have hlpos : 0 < l := lt_of_le_of_ne (ha l hap) (Ne.symm hl)
        have habs : |(c - l) / l * 100| = |c - l| / l * 100 := by
          rw [abs_mul, abs_div, abs_of_pos hlpos]
          norm_num
        simp only [emitStep, pairEmit, hap, hbp, habs]
        by_cases hcond : l ≠ 0 ∧ c ≠ 0 ∧ θ ≤ |c - l| / l * 100
        · rw [if_pos hcond, if_pos hcond]
          rfl
        · rw [if_neg hcond, if_neg hcond]
          rfl

lemma walkChanges_eq_pairChanges (θ : ℚ) :
    ∀ (rows : List ScrapedRow) (a : ScrapedRow),
    (∀ r ∈ a :: rows, ∀ q, r.price = some q → 0 ≤ q) →
    walkChanges θ a.price rows = pairChanges θ (a :: rows)
  | [], a, _ => by simp [walkChanges, pairChanges]
  | b :: t, a, h => by
    have ih := walkChanges_eq_pairChanges θ t b
      (fun r hr => h r (List.mem_cons_of_mem a hr))
    have hemit := emitStep_eq_toList θ a b (h a (List.mem_cons_self a _))
    show emitStep θ a.price b ++ walkChanges θ b.price t = _
    rw [hemit, ih]
    show (pairEmit θ a b).toList ++ _ =
      List.filterMap _ ((a, b) :: (b :: t).zip t)
    rw [List.filterMap_cons]
    cases pairEmit θ a b <;> simp [pairChanges]

/-- The concrete five-point series of the C7 scenario. -/
def c7r1 : ScrapedRow :=
  { product_id := some 1, retailer_id := 1, url := "u", price := some 100,
    success := true, scraped_at := 1 }

/-- Second point, price still 100. -/
def c7r2 : ScrapedRow := { c7r1 with scraped_at := 2 }

/-- Third point, price 106. -/
def c7r3 : ScrapedRow := { c7r1 with price := some 106, scraped_at := 3 }

/-- Fourth point, price still 106. -/
def c7r4 : ScrapedRow := { c7r1 with price := some 106, scraped_at := 4 }

/-- Fifth point, price 90. -/
def c7r5 : ScrapedRow := { c7r1 with price := some 90, scraped_at := 5 }

/-- The C7 series as a store. -/
def c7Store : List ScrapedRow := [c7r1, c7r2, c7r3, c7r4, c7r5]

lemma c7Store_prices_nonneg :
    ∀ r ∈ c7Store, ∀ q, r.price = some q → 0 ≤ q := by
  intro r hr q hq
  simp only [c7Store, List.mem_cons, List.not_mem_nil, or_false] at hr
  rcases hr with rfl | rfl | rfl | rfl | rfl <;>
    · simp only [c7r1, c7r2, c7r3, c7r4, c7r5, Option.some.injEq] at hq
      subst hq
      norm_num

lemma c7_chronology : chronology c7Store 1 = c7Store := by
  have hfil : c7Store.filter (fun r => decide (r.product_id = some 1))
      = c7Store := by
    refine List.filter_eq_self.mpr ?_
    intro r hr
    simp only [c7Store, List.mem_cons, List.not_mem_nil, or_false] at hr
    rcases hr with rfl | rfl | rfl | rfl | rfl <;> rfl
  have hsorted : List.Sorted byTimeAsc c7Store := by
    simp [c7Store, List.sorted_cons, byTimeAsc, c7r1, c7r2, c7r3, c7r4, c7r5]
  unfold chronology sortByTime
  rw [hfil]
  exact hsorted.insertionSort_eq

lemma c7_concrete_changes :
    pairChanges 5 c7Store = [(3, (100 : ℚ), 106), (5, (106 : ℚ), 90)] := by
  have hc1 : ¬((100 : ℚ) ≠ 0 ∧ (100 : ℚ) ≠ 0 ∧
      (5 : ℚ) ≤ |100 - 100| / 100 * 100) := by
    intro h
    have h3 := h.2.2
    rw [show (100 : ℚ) - 100 = 0 from by norm_num, abs_zero] at h3
    norm_num at h3
  have hc2 : ((100 : ℚ) ≠ 0 ∧ (106 : ℚ) ≠ 0 ∧
      (5 : ℚ) ≤ |106 - 100| / 100 * 100) := by
    refine ⟨by norm_num, by norm_num, ?_⟩
    rw [show (106 : ℚ) - 100 = 6 from by norm_num,
      abs_of_nonneg (by norm_num : (0 : ℚ) ≤ 6)]
    norm_num
  have hc3 : ¬((106 : ℚ) ≠ 0 ∧ (106 : ℚ) ≠ 0 ∧
      (5 : ℚ) ≤ |106 - 106| / 106 * 100) := by
    intro h
    have h3 := h.2.2
    rw [show (106 : ℚ) - 106 = 0 from by norm_num, abs_zero] at h3
    norm_num at h3
  have hc4 : ((106 : ℚ) ≠ 0 ∧ (90 : ℚ) ≠ 0 ∧
      (5 : ℚ) ≤ |90 - 106| / 106 * 100) := by
    refine ⟨by norm_num, by norm_num, ?_⟩
    rw [show (90 : ℚ) - 106 = -16 from by norm_num, abs_neg,
      abs_of_nonneg (by norm_num : (0 : ℚ) ≤ 16)]
    norm_num
  have he1 : pairEmit 5 c7r1 c7r2 = none := by
    show (if ((100 : ℚ) ≠ 0 ∧ (100 : ℚ) ≠ 0 ∧
        (5 : ℚ) ≤ |100 - 100| / 100 * 100) then
      some ((2 : ℕ), (100 : ℚ), (100 : ℚ)) else none) = none
    rw [if_neg hc1]
  have he2 : pairEmit 5 c7r2 c7r3 = some (3, (100 : ℚ), 106) := by
    show (if ((100 : ℚ) ≠ 0 ∧ (106 : ℚ) ≠ 0 ∧
        (5 : ℚ) ≤ |106 - 100| / 100 * 100) then
      some ((3 : ℕ), (100 : ℚ), (106 : ℚ)) else none) = some (3, 100, 106)
    rw [if_pos hc2]
  have he3 : pairEmit 5 c7r3 c7r4 = none := by
    show (if ((106 : ℚ) ≠ 0 ∧ (106 : ℚ) ≠ 0 ∧
        (5 : ℚ) ≤ |106 - 106| / 106 * 100) then
      some ((4 : ℕ), (106 : ℚ), (106 : ℚ)) else none) = none
    rw [if_neg hc3]
  have he4 : pairEmit 5 c7r4 c7r5 = some (5, (106 : ℚ), 90) := by
    show (if ((106 : ℚ) ≠ 0 ∧ (90 : ℚ) ≠ 0 ∧
        (5 : ℚ) ≤ |90 - 106| / 106 * 100) then
      some ((5 : ℕ), (106 : ℚ), (90 : ℚ)) else none) = some (5, 106, 90)
    rw [if_pos hc4]
  show List.filterMap (fun ab => pairEmit 5 ab.1 ab.2)
    (c7Store.zip c7Store.tail) = _
  rw [show c7Store.zip c7Store.tail =
    [(c7r1, c7r2), (c7r2, c7r3), (c7r3, c7r4), (c7r4, c7r5)] from rfl]
  simp only [List.filterMap_cons, List.filterMap_nil, he1, he2, he3, he4]

/-- C7 (amended): the detector walks the chronological series pairwise and,
for nonnegative price data, emits exactly the consecutive pairs whose
prices are both non-null **and nonzero** (Python truthiness — a zero price
is skipped exactly like a null one) with
`|new - old| / old * 100 >= threshold`; on the concrete series
`[100, 100, 106, 106, 90]` at threshold 5 it emits exactly
`100 → 106` and `106 → 90`. -/
theorem C7_price_changes_pairwise (store : List ScrapedRow) (pid : Nat)
    (θ : ℚ) (hpos : ∀ r ∈ store, ∀ q, r.price = some q → 0 ≤ q) :
    getPriceChanges store pid θ = pairChanges θ (chronology store pid) ∧
    getPriceChanges c7Store 1 5 = [(3, (100 : ℚ), 106), (5, (106 : ℚ), 90)] := by
  have hgen : ∀ (st : List ScrapedRow) (p : Nat) (θ2 : ℚ),
      (∀ r ∈ st, ∀ q, r.price = some q → 0 ≤ q) →
      getPriceChanges st p θ2 = pairChanges θ2 (chronology st p) := by
    intro st p θ2 hp
    have hmem : ∀ r ∈ chronology st p, ∀ q, r.price = some q → 0 ≤ q := by
      intro r hr
      have hr2 : r ∈ st := List.mem_of_mem_filter
        ((List.perm_insertionSort byTimeAsc _).mem_iff.mp hr)
      exact hp r hr2
    unfold getPriceChanges
    cases hc : chronology st p with
    | nil => simp [walkChanges, pairChanges]
    | cons a t =>
      rw [hc] at hmem
      show emitStep θ2 none a ++ walkChanges θ2 a.price t = _
      rw [show emitStep θ2 none a = [] from by cases hap : a.price <;>
        simp [emitStep, hap], List.nil_append]
      exact walkChanges_eq_pairChanges θ2 t a hmem
  refine ⟨hgen store pid θ hpos, ?_⟩
  rw [hgen c7Store 1 5 c7Store_prices_nonneg, c7_chronology,
    c7_concrete_changes]

/-- Witness for C7: the hypotheses hold for the concrete five-point store,
and the theorem instantiated there gives both the pairwise form and the
two expected emissions. -/
theorem C7_price_changes_pairwise_witness :
    (∀ r ∈ c7Store, ∀ q, r.price = some q → 0 ≤ q) ∧
    getPriceChanges c7Store 1 5 = pairChanges 5 (chronology c7Store 1) ∧
    getPriceChanges c7Store 1 5 = [(3, (100 : ℚ), 106), (5, (106 : ℚ), 90)] :=
  ⟨c7Store_prices_nonneg,
    (C7_price_changes_pairwise c7Store 1 5 c7Store_prices_nonneg).1,
    (C7_price_changes_pairwise c7Store 1 5 c7Store_prices_nonneg).2⟩

/-- First row of the C7 counterexample: price 100. -/
def c7za : ScrapedRow :=
  { product_id := some 1, retailer_id := 1, url := "u", price := some 100,
    success := true, scraped_at := 1 }

/-- Second row of the C7 counterexample: price drops to 0. -/
def c7zb : ScrapedRow := { c7za with price := some 0, scraped_at := 2 }

/-- C7 counterexample: in the series `[100, 0]` both prices are non-null
and the claimed emission condition `|new - old| / old * 100 >= 5` holds
(`|0 - 100| / 100 * 100 = 100`), yet the code emits nothing: a stored
price of `0` is Python-falsy and the pair is skipped, which the claim
(which only exempts *null* prices) does not allow. -/
theorem C7_counterexample_zero_price_pair_skipped :
    c7za.price = some 100 ∧ c7zb.price = some 0 ∧
    (5 : ℚ) ≤ |(0 : ℚ) - 100| / 100 * 100 ∧
    getPriceChanges [c7za, c7zb] 1 5 = [] := by
  refine ⟨rfl, rfl, ?_, ?_⟩
  · rw [show (0 : ℚ) - 100 = -100 from by norm_num, abs_neg,
      abs_of_nonneg (by norm_num : (0 : ℚ) ≤ 100)]
    norm_num
  · have hfil : ([c7za, c7zb].filter
        (fun r => decide (r.product_id = some 1))) = [c7za, c7zb] := rfl
    have hsorted : List.Sorted byTimeAsc [c7za, c7zb] := by
      simp [List.sorted_cons, byTimeAsc, c7za, c7zb]
    have hchron : chronology [c7za, c7zb] 1 = [c7za, c7zb] := by
      unfold chronology sortByTime
      rw [hfil]
      exact hsorted.insertionSort_eq
    unfold getPriceChanges
    rw [hchron]
    show emitStep 5 none c7za ++ (emitStep 5 c7za.price c7zb ++ []) = []
    rw [show emitStep 5 none c7za = [] from rfl]
    rw [show emitStep 5 c7za.price c7zb =
        (if ((100 : ℚ) ≠ 0 ∧ (0 : ℚ) ≠ 0 ∧
          (5 : ℚ) ≤ |(0 : ℚ) - 100| / 100 * 100) then
        [((2 : ℕ), (100 : ℚ), (0 : ℚ))] else []) from rfl]
    rw [if_neg (fun h => h.2.1 rfl)]
    rfl

/-! ### Retailer performance (`ScrapingService.get_retailer_performance`)

The failed-scrape list comes from `get_failed_scrapes` (a proper
`eq("success", False)` + `gte("scraped_at", start)` query).  The window
**total**, however, comes from
`find_by(retailer_id=…, scraped_at={"gte": start.isoformat()})`, and
`BaseRepository.find_by` applies `.eq(field, value)` to every keyword —
so the `scraped_at` column is compared for *equality* with the
serialized dict.  No timestamp equals that literal (a strict PostgREST
server rejects the request outright); either way the query yields no
rows, which the next definition models. -/

/-- Equality of a `scraped_at` timestamp with the serialized Python dict
`{"gte": start.isoformat()}`: never true. -/
def scrapedAtEqualsDictLiteral (_r : ScrapedRow) : Bool := false

/-- `find_by(retailer_id=…, scraped_at={"gte": …})` as issued by
`get_retailer_performance`. -/
def findByRetailerWindow (store : List ScrapedRow) (rid : Nat) :
    List ScrapedRow :=
  store.filter (fun r =>
    decide (r.retailer_id = rid) && scrapedAtEqualsDictLiteral r)

/-- `ScrapedDataRepository.get_failed_scrapes`: unsuccessful rows since
`start`, restricted to the retailer when the id is truthy; no order
clause, so table order is kept. -/
def getFailedScrapes (store : List ScrapedRow) (rid : Nat) (start : Nat) :
    List ScrapedRow :=
  let base := store.filter (fun r =>
    decide (r.success = false ∧ start ≤ r.scraped_at))
  if rid = 0 then base
  else base.filter (fun r => decide (r.retailer_id = rid))

/-- One entry of the `recent_failures` list. -/
structure FailureRecord where
  url : String
  error_info : Option String
  timestamp : Nat
deriving DecidableEq

/-- The dict `get_retailer_performance` returns. -/
structure PerfReport where
  total_scrapes : Nat
  failed_scrapes : Nat
  success_rate : ℚ
  recent_failures : List FailureRecord
deriving DecidableEq

/-- Python `failed_scrapes[-5:]`. -/
def lastFive (l : List ScrapedRow) : List ScrapedRow :=
  l.drop (l.length - 5)

/-- `ScrapingService.get_retailer_performance`. -/
def getRetailerPerformance (store : List ScrapedRow) (rid : Nat)
    (start : Nat) : PerfReport :=
  let failed := getFailedScrapes store rid start
  let allScrapes := findByRetailerWindow store rid
  let total := allScrapes.length
  let failedCount := failed.length
  { total_scrapes := total,
    failed_scrapes := failedCount,
    success_rate :=
      if 0 < total then ((total : ℚ) - failedCount) / total else 0,
    recent_failures := (lastFive failed).map
      (fun r => { url := r.url, error_info := r.error_info,
                  timestamp := r.scraped_at }) }

/-- A successful scrape for retailer 1 inside the window. -/
def c9ok : ScrapedRow :=
  { product_id := some 1, retailer_id := 1, url := "http://r.example/ok",
    price := some 10, success := true, scraped_at := 10 }

/-- A failed scrape for retailer 1 inside the window. -/
def c9fail : ScrapedRow :=
  { product_id := some 1, retailer_id := 1,
    url := "http://r.example/fail", price := none, success := false,
    error_info := some "boom", scraped_at := 20 }

/-- The C9 store: two retailer-1 scrapes in the window, one failed. -/
def c9Store : List ScrapedRow := [c9ok, c9fail]

/-- C9: evaluation at the failing input.  The store holds two retailer-1
scrapes inside the window (one failed), so the claimed success rate is
`(2 - 1) / 2 = 1/2`; but the window-total query compares `scraped_at`
for equality with a dict literal and matches nothing, so the report says
`total_scrapes = 0` and `success_rate = 0` even though scrapes exist.
(The failure list itself is correct: one entry carrying URL, error
payload and timestamp.) -/
theorem C9_performance_total_always_zero :
    (c9Store.filter (fun r =>
      decide (r.retailer_id = 1 ∧ 0 ≤ r.scraped_at))).length = 2 ∧
    (getFailedScrapes c9Store 1 0).length = 1 ∧
    (getRetailerPerformance c9Store 1 0).total_scrapes = 0 ∧
    (getRetailerPerformance c9Store 1 0).success_rate = 0 ∧
    (getRetailerPerformance c9Store 1 0).recent_failures =
      [{ url := "http://r.example/fail", error_info := some "boom",
         timestamp := 20 }] ∧
    ((2 : ℚ) - 1) / 2 ≠ (getRetailerPerformance c9Store 1 0).success_rate := by
  refine ⟨rfl, rfl, rfl, rfl, rfl, ?_⟩
  rw [show (getRetailerPerformance c9Store 1 0).success_rate = 0 from rfl]
  norm_num

end MarketMiner
